import Mathlib

/-!
Verification development for the cconsent consent-management core
(src/core/ScriptManager.ts, src/core/ConsentManager.ts, src/core/StorageAdapter.ts).

Strings of the host language are modelled as lists of characters; JS objects
whose field presence matters are modelled as structures with optional fields
or as ordered association lists.
-/

/-- Whitespace test standing for the JS regex class \s, restricted to the
ASCII range (the gating expressions in scope are ASCII). -/
def isWS (c : Char) : Bool :=
  c = ' ' || c = '\t' || c = '\n' || c = '\r' || c = '\x0b' || c = '\x0c'

/-- JS String.prototype.trim over the characters recognised by isWS. -/
def jsTrim (l : List Char) : List Char :=
  ((l.dropWhile isWS).reverse.dropWhile isWS).reverse

/-- Maximal runs of non-whitespace characters, accumulator form. -/
def wsWords : List Char → List Char → List (List Char)
  | [], acc => if acc.isEmpty then [] else [acc.reverse]
  | c :: rest, acc =>
    if isWS c then
      if acc.isEmpty then wsWords rest [] else acc.reverse :: wsWords rest []
    else wsWords rest (c :: acc)

/-- The JS expression categoryAttr.trim().split(regex of one or more
whitespace characters). On an empty or all-whitespace input the JS split of
the empty string yields one empty token, which this definition reproduces. -/
def jsSplitWS (l : List Char) : List (List Char) :=
  let t := jsTrim l
  if t.isEmpty then [[]] else wsWords t []

/-- Token classification loop of ScriptManager.parseCategories: a token with
a leading bang is an exclusion (its name is the remainder of the token),
every other token is a requirement. Order of appearance is preserved. -/
def classifyTokens : List (List Char) → List (List Char) × List (List Char)
  | [] => ([], [])
  | t :: rest =>
    let p := classifyTokens rest
    if t.head? = some '!' then (p.1, t.tail :: p.2) else (t :: p.1, p.2)

/-- ScriptManager.parseCategories: split the attribute on whitespace and
classify each token as required or excluded. -/
def parseCategories (categoryAttr : List Char) : List (List Char) × List (List Char) :=
  classifyTokens (jsSplitWS categoryAttr)

/-- ScriptManager.shouldAllow: deny if any excluded category is allowed,
else allow if any required category is allowed, else allow exactly when the
requirement list is empty. The predicate is the injected isAllowedFn. -/
def shouldAllow (isAllowedFn : List Char → Bool) (categoryAttr : List Char) : Bool :=
  let rc := parseCategories categoryAttr
  if rc.2.any isAllowedFn then false
  else if rc.1.any isAllowedFn then true
  else rc.1.isEmpty

/-- Tokens of a gating expression as the spec words it: the expression split
on whitespace, with no token at all for an empty or all-whitespace
expression. -/
def specTokens (l : List Char) : List (List Char) := wsWords (jsTrim l) []

/-- The category lookup used when the manager feeds ScriptManager, mirroring
ConsentManager.isAllowed composed over the five category names: any unknown
name (including the empty name) is never allowed. -/
def catAllowed (n f p a m : Bool) (name : List Char) : Bool :=
  if name = "necessary".data then n
  else if name = "functional".data then f
  else if name = "preferences".data then p
  else if name = "analytics".data then a
  else if name = "marketing".data then m
  else false

/-- DOM state of a script element, restricted to the attributes the manager
touches: the src attribute, the type attribute, the inline text content and
the data-cconsent-loaded marker. -/
structure ScriptElem where
  srcAttr : Option (List Char)
  typeAttr : Option (List Char)
  textContent : Option (List Char)
  loadedMark : Bool
deriving DecidableEq, Repr

/-- The ManagedScript record of ScriptManager. -/
structure ManagedScript where
  element : ScriptElem
  category : List Char
  originalSrc : Option (List Char)
  inlineContent : Option (List Char)
  blocked : Bool
  executed : Bool
deriving DecidableEq, Repr

/-- ScriptManager.blockScript: strip the executable source or inline payload
from the element and set the blocked flag. -/
def blockScript (s : ManagedScript) : ManagedScript :=
  let e :=
    if s.originalSrc.isSome then
      { s.element with srcAttr := none, typeAttr := some ("text/plain").data }
    else if s.inlineContent.isSome then
      { s.element with typeAttr := some ("text/plain").data, textContent := some [] }
    else s.element
  { s with element := e, blocked := true }

/-- ScriptManager.allowScript: a no-op on an already executed script;
otherwise substitute a fresh element carrying the original source or inline
payload, tagged with the data-cconsent-loaded marker, and record the script
as executed and not blocked. -/
def allowScript (s : ManagedScript) : ManagedScript :=
  if s.executed then s
  else
    let newElem : ScriptElem :=
      { srcAttr := s.originalSrc
        typeAttr := none
        textContent := if s.originalSrc.isSome then none else s.inlineContent
        loadedMark := true }
    { s with element := newElem, blocked := false, executed := true }

/-- The per-script body of ScriptManager.evaluate. -/
def evaluateScript (isAllowedFn : List Char → Bool) (s : ManagedScript) : ManagedScript :=
  let allowed := shouldAllow isAllowedFn s.category
  if allowed && !s.executed then allowScript s
  else if !allowed && !s.blocked then blockScript s
  else s

/-- ScriptManager.evaluate over the managed script list. -/
def evaluateScripts (isAllowedFn : List Char → Bool) (l : List ManagedScript) :
    List ManagedScript :=
  l.map (evaluateScript isAllowedFn)

/-- Status string reported by ScriptManager.getManagedScripts. -/
def scriptStatus (s : ManagedScript) : List Char :=
  if s.executed then ("allowed").data
  else if s.blocked then ("blocked").data
  else ("pending").data

/-- DOM state of an iframe element, restricted to what scanIframes reads and
writes: the gating attribute, the src and data-src attributes and the
data-cconsent-processed marker. -/
structure IframeElem where
  categoryAttr : Option (List Char)
  srcAttr : Option (List Char)
  dataSrc : Option (List Char)
  processedMark : Bool
deriving DecidableEq, Repr

/-- The ManagedIframe record of ScriptManager, with the owning DOM node
identified by its position in the document model. -/
structure ManagedIframe where
  elemId : Nat
  category : List Char
  originalSrc : Option (List Char)
  blocked : Bool
deriving DecidableEq, Repr

/-- One pass of the scanIframes loop over the document: every gated iframe
that does not yet carry the processed marker receives the marker and is
pushed onto the fresh managed list; marked iframes are skipped. Returns the
updated document and the new managed list. -/
def scanIframesGo : List (Nat × IframeElem) → List (Nat × IframeElem) × List ManagedIframe
  | [] => ([], [])
  | (i, e) :: rest =>
    let p := scanIframesGo rest
    if e.categoryAttr.isSome then
      if e.processedMark then ((i, e) :: p.1, p.2)
      else
        ((i, { e with processedMark := true }) :: p.1,
         { elemId := i
           category := e.categoryAttr.getD []
           originalSrc := match e.dataSrc with | some d => some d | none => e.srcAttr
           blocked := false } :: p.2)
    else ((i, e) :: p.1, p.2)

/-- ScriptManager.scanIframes: the managed iframe list is reset to empty and
repopulated from the unmarked gated iframes of the document; the previous
managed list is discarded. -/
def scanIframes (doc : List (Nat × IframeElem)) (_managedIframes : List ManagedIframe) :
    List (Nat × IframeElem) × List ManagedIframe :=
  scanIframesGo doc

/-- DOM state of a script element as seen by scanScripts. -/
structure ScriptDomElem where
  categoryAttr : Option (List Char)
  srcAttr : Option (List Char)
  textContent : Option (List Char)
  loadedMark : Bool
deriving DecidableEq, Repr

/-- ScriptManager.scanScripts: the managed script list is reset and
repopulated from the gated scripts that do not carry the
data-cconsent-loaded marker; the document is not modified. -/
def scanScripts (doc : List ScriptDomElem) (_managedScripts : List ManagedScript) :
    List ManagedScript :=
  (doc.filter (fun e => e.categoryAttr.isSome && !e.loadedMark)).map
    (fun e =>
      { element :=
          { srcAttr := e.srcAttr
            typeAttr := none
            textContent := e.textContent
            loadedMark := e.loadedMark }
        category := e.categoryAttr.getD []
        originalSrc := e.srcAttr
        inlineContent := e.textContent
        blocked := false
        executed := false })

/-- The five-flag category record of the consent model. -/
structure ConsentCategories where
  necessary : Bool
  functional : Bool
  preferences : Bool
  analytics : Bool
  marketing : Bool
deriving DecidableEq, Repr

/-- The full stored consent record built by ConsentManager.save. -/
structure ConsentState where
  version : String
  necessary : Bool
  functional : Bool
  preferences : Bool
  analytics : Bool
  marketing : Bool
  timestamp : String
  consentId : Option String
deriving DecidableEq, Repr

/-- A record as it comes back from storage: every field may be absent, which
models both legacy records and hand-edited data. -/
structure StoredConsent where
  version : Option String
  necessary : Option Bool
  functional : Option Bool
  preferences : Option Bool
  analytics : Option Bool
  marketing : Option Bool
  timestamp : Option String
  consentId : Option String
deriving DecidableEq, Repr

/-- View of a complete record as a stored record with every field present. -/
def toStored (c : ConsentState) : StoredConsent :=
  { version := some c.version
    necessary := some c.necessary
    functional := some c.functional
    preferences := some c.preferences
    analytics := some c.analytics
    marketing := some c.marketing
    timestamp := some c.timestamp
    consentId := c.consentId }

/-- ConsentManager.migrateV1toV2: stamp version 2.0, force necessary true,
default functional and preferences to false, carry analytics, marketing,
timestamp and consentId with the same defaulting the source applies
(absent analytics or marketing become false, an absent timestamp becomes
the current time passed in as now). -/
def migrateV1toV2 (now : String) (oldConsent : StoredConsent) : ConsentState :=
  { version := "2.0"
    necessary := true
    functional := false
    preferences := false
    analytics := oldConsent.analytics.getD false
    marketing := oldConsent.marketing.getD false
    timestamp := oldConsent.timestamp.getD now
    consentId := oldConsent.consentId }

/-- In-memory state owned by ConsentManager. -/
structure ConsentManagerState where
  categories : ConsentCategories
  consentId : Option String
deriving DecidableEq, Repr

/-- Manager state paired with the storage cell it is wired to. The cell holds
the record-level content; the byte-level adapter is modelled separately. -/
structure ConsentSystem where
  manager : ConsentManagerState
  stored : Option StoredConsent
deriving DecidableEq, Repr

/-- Categories as the ConsentManager constructor sets them. -/
def initCategories : ConsentCategories :=
  { necessary := true, functional := false, preferences := false
    analytics := false, marketing := false }

/-- Manager state right after construction. -/
def initManager : ConsentManagerState :=
  { categories := initCategories, consentId := none }

/-- The record literal built inside ConsentManager.save. -/
def buildConsentState (m : ConsentManagerState) (now : String) : ConsentState :=
  { version := "2.0"
    necessary := m.categories.necessary
    functional := m.categories.functional
    preferences := m.categories.preferences
    analytics := m.categories.analytics
    marketing := m.categories.marketing
    timestamp := now
    consentId := m.consentId }

/-- ConsentManager.save: assign a fresh consent id on the first persist when
generation is enabled and no id is assigned yet, then persist the record
built from the current categories. The fresh id models one draw from the
UUID generator. -/
def managerSave (generateId : Bool) (fresh : String) (now : String)
    (s : ConsentSystem) : ConsentSystem :=
  let cid := if generateId && s.manager.consentId.isNone then some fresh
             else s.manager.consentId
  let m := { s.manager with consentId := cid }
  { manager := m, stored := some (toStored (buildConsentState m now)) }

/-- ConsentManager.acceptAll: all five categories true, then save. -/
def acceptAll (generateId : Bool) (fresh : String) (now : String)
    (s : ConsentSystem) : ConsentSystem :=
  managerSave generateId fresh now
    { s with manager :=
        { s.manager with categories :=
            { necessary := true, functional := true, preferences := true
              analytics := true, marketing := true } } }

/-- ConsentManager.rejectAll: necessary true, the other four false, then
save. -/
def rejectAll (generateId : Bool) (fresh : String) (now : String)
    (s : ConsentSystem) : ConsentSystem :=
  managerSave generateId fresh now
    { s with manager := { s.manager with categories := initCategories } }

/-- Caller-supplied overrides for savePreferences; absent fields keep the
previous value, and the necessary field of the input is ignored. -/
structure CategoryOverrides where
  necessary : Option Bool
  functional : Option Bool
  preferences : Option Bool
  analytics : Option Bool
  marketing : Option Bool
deriving DecidableEq, Repr

/-- ConsentManager.savePreferences: merge the supplied overrides, forcing
necessary to true regardless of the input, then save. -/
def savePreferences (ov : CategoryOverrides) (generateId : Bool) (fresh : String)
    (now : String) (s : ConsentSystem) : ConsentSystem :=
  let cur := s.manager.categories
  managerSave generateId fresh now
    { s with manager :=
        { s.manager with categories :=
            { necessary := true
              functional := ov.functional.getD cur.functional
              preferences := ov.preferences.getD cur.preferences
              analytics := ov.analytics.getD cur.analytics
              marketing := ov.marketing.getD cur.marketing } } }

/-- ConsentManager.reset: clear storage, restore default categories, clear
the consent id. -/
def resetConsent (_s : ConsentSystem) : ConsentSystem :=
  { manager := initManager, stored := none }

/-- ConsentManager.load: read the storage cell; a record without a version
field is migrated and the migrated record is persisted at once; the
in-memory categories are then populated from the (possibly migrated) record
with necessary forced true and absent optional fields read as false, and the
loaded record is returned. An empty cell leaves the state unchanged and
returns nothing. -/
def loadConsent (now : String) (s : ConsentSystem) :
    ConsentSystem × Option StoredConsent :=
  match s.stored with
  | none => (s, none)
  | some c0 =>
    let migrated := c0.version.isNone
    let c := if migrated then toStored (migrateV1toV2 now c0) else c0
    let stored1 := if migrated then some c else s.stored
    let cats : ConsentCategories :=
      { necessary := true
        functional := c.functional.getD false
        preferences := c.preferences.getD false
        analytics := c.analytics.getD false
        marketing := c.marketing.getD false }
    ({ manager := { categories := cats, consentId := c.consentId }, stored := stored1 },
     some c)

/-- ConsentManager.getConsentId. -/
def getConsentId (m : ConsentManagerState) : Option String := m.consentId

/-- ConsentManager.getCallbackCategories, with the payload rendered as the
ordered key-value list of the object literal the source builds, so that
presence or absence of a key is expressible. In legacy mode the analytics
entry reports the disjunction of the three soft categories and functional
and preferences are written as false. -/
def callbackPayload (legacyMode : Bool) (c : ConsentCategories) : List (String × Bool) :=
  if legacyMode then
    [("necessary", c.necessary), ("functional", false), ("preferences", false),
     ("analytics", c.functional || c.preferences || c.analytics),
     ("marketing", c.marketing)]
  else
    [("necessary", c.necessary), ("functional", c.functional),
     ("preferences", c.preferences), ("analytics", c.analytics),
     ("marketing", c.marketing)]

/-- ConsentManager.getStatus: classify by the number of allowed categories
among the four optional ones. -/
def getStatus (c : ConsentCategories) : String :=
  let allowedCount :=
    (List.filter (fun b => b) [c.functional, c.preferences, c.analytics, c.marketing]).length
  if allowedCount = 4 then "all"
  else if allowedCount > 0 then "partial"
  else "essential"

/-- ConsentManager.getActiveCategoryCount: one for necessary plus one per
allowed optional category. -/
def getActiveCategoryCount (c : ConsentCategories) : Nat :=
  let c1 := 1
  let c2 := if c.functional then c1 + 1 else c1
  let c3 := if c.preferences then c2 + 1 else c2
  let c4 := if c.analytics then c3 + 1 else c3
  if c.marketing then c4 + 1 else c4

/-- Opening fragment of the serialized record, exposed as a head cons so the
first character is visible to the parser lemmas. -/
def fVersion : List Char := '\x7b' :: ("\"version\":\"").data

/-- Fragment between the version value and the necessary value. -/
def fNecessary : List Char := (",\"necessary\":").data

/-- Fragment before the functional value. -/
def fFunctional : List Char := (",\"functional\":").data

/-- Fragment before the preferences value. -/
def fPreferences : List Char := (",\"preferences\":").data

/-- Fragment before the analytics value. -/
def fAnalytics : List Char := (",\"analytics\":").data

/-- Fragment before the marketing value. -/
def fMarketing : List Char := (",\"marketing\":").data

/-- Fragment before the timestamp value. -/
def fTimestamp : List Char := (",\"timestamp\":\"").data

/-- Fragment before the consentId value. -/
def fConsentId : List Char := (",\"consentId\":\"").data

/-- JSON boolean literals. -/
def boolLit : Bool → List Char
  | true => ("true").data
  | false => ("false").data

/-- Tail of the serialized record after the closing quote of the timestamp:
either the closing brace alone, or the consentId member followed by the
closing brace. JSON.stringify drops a member whose value is undefined, which
is how an unset consentId is omitted. -/
def jsonTail : Option String → List Char
  | none => ['\x7d']
  | some i => fConsentId ++ (i.data ++ ('"' :: ['\x7d']))

/-- JSON.stringify applied to the record literal of ConsentManager.save: the
members appear in insertion order, string values verbatim (the validity
predicate below rules out characters that stringify would escape). -/
def jsonStringify (s : ConsentState) : List Char :=
  fVersion ++ (s.version.data ++ ('"' :: (fNecessary ++ (boolLit s.necessary ++
    (fFunctional ++ (boolLit s.functional ++ (fPreferences ++ (boolLit s.preferences ++
      (fAnalytics ++ (boolLit s.analytics ++ (fMarketing ++ (boolLit s.marketing ++
        (fTimestamp ++ (s.timestamp.data ++ ('"' :: jsonTail s.consentId)))))))))))))))

/-- Consume an expected literal fragment from the head of the input. -/
def stripPfx : List Char → List Char → Option (List Char)
  | [], l => some l
  | _ :: _, [] => none
  | p :: ps, c :: cs => if p = c then stripPfx ps cs else none

/-- Read characters up to and including the next double quote, returning the
content and the remainder. -/
def readStr : List Char → Option (List Char × List Char)
  | [] => none
  | c :: cs =>
    if c = '"' then some ([], cs)
    else (readStr cs).map (fun pr => (c :: pr.1, pr.2))

/-- Read a JSON boolean literal from the head of the input. -/
def readBool (l : List Char) : Option (Bool × List Char) :=
  match stripPfx (boolLit true) l with
  | some r => some (true, r)
  | none =>
    match stripPfx (boolLit false) l with
    | some r => some (false, r)
    | none => none


/-- Consume a literal fragment, then a JSON boolean. -/
def parseBoolField (f : List Char) (l : List Char) : Option (Bool × List Char) :=
  match stripPfx f l with
  | none => none
  | some r => readBool r

/-- Consume a literal fragment, then a quoted string value. -/
def parseStrField (f : List Char) (l : List Char) : Option (List Char × List Char) :=
  match stripPfx f l with
  | none => none
  | some r => readStr r

/-- Parse the end of the record after the closing quote of the timestamp:
either the closing brace alone, or a consentId member followed by the
closing brace, returning the id content when present. -/
def parseEnd (l : List Char) : Option (Option (List Char)) :=
  if l = ['\x7d'] then some none
  else
    match parseStrField fConsentId l with
    | none => none
    | some (i, r2) => if r2 = ['\x7d'] then some (some i) else none

/-- Parse the five boolean members in order, returning the remainder. -/
def parseFlags (l : List Char) : Option ((Bool × Bool × Bool × Bool × Bool) × List Char) :=
  match parseBoolField fNecessary l with
  | none => none
  | some (bn, r1) =>
    match parseBoolField fFunctional r1 with
    | none => none
    | some (bf, r2) =>
      match parseBoolField fPreferences r2 with
      | none => none
      | some (bp, r3) =>
        match parseBoolField fAnalytics r3 with
        | none => none
        | some (ba, r4) =>
          match parseBoolField fMarketing r4 with
          | none => none
          | some (bm, r5) => some ((bn, bf, bp, ba, bm), r5)

/-- JSON.parse specialized to the record layout emitted by
ConsentManager.save via jsonStringify: the exact member sequence with an
optional trailing consentId member. Any input that does not follow this
layout is rejected, in particular any input whose first character is not an
opening brace, which is what makes the plain-parse attempt of decode fail on
base64 text. -/
def jsonParseConsent (l : List Char) : Option ConsentState :=
  match stripPfx fVersion l with
  | none => none
  | some r1 =>
    match readStr r1 with
    | none => none
    | some (v, r2) =>
      match parseFlags r2 with
      | none => none
      | some ((bn, bf, bp, ba, bm), r3) =>
        match parseStrField fTimestamp r3 with
        | none => none
        | some (t, r4) =>
          match parseEnd r4 with
          | none => none
          | some cid =>
            some { version := String.mk v, necessary := bn, functional := bf
                   preferences := bp, analytics := ba, marketing := bm
                   timestamp := String.mk t, consentId := cid.map String.mk }
/-- The base64 alphabet used by btoa. -/
def b64char (n : Nat) : Char :=
  if n < 26 then Char.ofNat (65 + n)
  else if n < 52 then Char.ofNat (97 + (n - 26))
  else if n < 62 then Char.ofNat (48 + (n - 52))
  else if n = 62 then '+' else '/'

/-- Inverse lookup into the base64 alphabet, rejecting every other
character. -/
def b64inv (c : Char) : Option Nat :=
  let k := c.toNat
  if 65 ≤ k ∧ k ≤ 90 then some (k - 65)
  else if 97 ≤ k ∧ k ≤ 122 then some (26 + (k - 97))
  else if 48 ≤ k ∧ k ≤ 57 then some (52 + (k - 48))
  else if k = 43 then some 62
  else if k = 47 then some 63
  else none

/-- btoa over a byte sequence: three bytes become four alphabet characters,
with equals-sign padding for a trailing group of one or two bytes. -/
def btoaChunks : List Nat → List Char
  | [] => []
  | [a] => [b64char (a / 4), b64char (a % 4 * 16), '=', '=']
  | [a, b] => [b64char (a / 4), b64char (a % 4 * 16 + b / 16), b64char (b % 16 * 4), '=']
  | a :: b :: c :: rest =>
    b64char (a / 4) :: b64char (a % 4 * 16 + b / 16) ::
      b64char (b % 16 * 4 + c / 64) :: b64char (c % 64) :: btoaChunks rest

/-- atob over the characters read back from storage: groups of four alphabet
characters yield three bytes, a padded final group yields one or two, and
anything else is rejected (the JS function throws there). -/
def atobChunks : List Char → Option (List Nat)
  | [] => some []
  | c1 :: c2 :: c3 :: c4 :: rest =>
    if rest = [] ∧ c3 = '=' ∧ c4 = '=' then
      match b64inv c1, b64inv c2 with
      | some n1, some n2 => some [n1 * 4 + n2 / 16]
      | _, _ => none
    else if rest = [] ∧ c4 = '=' then
      match b64inv c1, b64inv c2, b64inv c3 with
      | some n1, some n2, some n3 => some [n1 * 4 + n2 / 16, n2 % 16 * 16 + n3 / 4]
      | _, _, _ => none
    else
      match b64inv c1, b64inv c2, b64inv c3, b64inv c4, atobChunks rest with
      | some n1, some n2, some n3, some n4, some tail =>
        some ((n1 * 4 + n2 / 16) :: (n2 % 16 * 16 + n3 / 4) :: (n3 % 4 * 64 + n4) :: tail)
      | _, _, _, _, _ => none
  | _ => none

/-- The btoa call of StorageAdapter.encode. The surrounding URI transform
turns the JSON text into its UTF-8 bytes; on the ASCII-only strings admitted
by validState the bytes are the character codes themselves. -/
def btoaL (l : List Char) : List Char := btoaChunks (l.map Char.toNat)

/-- The atob call of StorageAdapter.decode, the reverse byte-to-text step
included. -/
def atobL (l : List Char) : Option (List Char) :=
  (atobChunks l).map (fun bs => bs.map Char.ofNat)

/-- StorageAdapter.encode: serialize, and apply the reversible base64
transform exactly when the obfuscation toggle is set. The try-catch of the
source never fires on the ASCII-only inputs admitted here, so it is not
modelled. -/
def encode (encryption : Bool) (data : ConsentState) : List Char :=
  let jsonString := jsonStringify data
  if encryption then btoaL jsonString else jsonString

/-- StorageAdapter.decode: empty input is rejected, a plain parse is
attempted first, and only if it fails is the base64 decode attempted. -/
def decode (encodedData : List Char) : Option ConsentState :=
  if encodedData = [] then none
  else
    match jsonParseConsent encodedData with
    | some s => some s
    | none =>
      match atobL encodedData with
      | some decoded => jsonParseConsent decoded
      | none => none

/-- StorageAdapter.save at the level of the stored string cell. -/
def storageSave (encryption : Bool) (data : ConsentState) : List Char :=
  encode encryption data

/-- StorageAdapter.load at the level of the stored string cell. -/
def storageLoad (cell : Option (List Char)) : Option ConsentState :=
  match cell with
  | none => none
  | some stored => decode stored

/-- Characters of a stored string value that JSON.stringify writes verbatim
and that fit in one UTF-8 byte: printable ASCII other than the double quote
and the backslash. -/
def goodChar (c : Char) : Bool :=
  decide (32 ≤ c.toNat) && decide (c.toNat < 128) && !(c = '"') && !(c = '\\')

/-- All characters of a string are goodChar. -/
def goodStr (s : String) : Bool := s.data.all goodChar

/-- A consent record whose string members need no JSON escaping and are
ASCII; ISO-8601 timestamps, UUID v4 ids and the version tag all satisfy
this. -/
def validState (s : ConsentState) : Bool :=
  goodStr s.version && goodStr s.timestamp &&
    (match s.consentId with
     | none => true
     | some i => goodStr i)

/-- Sample executed script used to exercise evaluate on an executed script. -/
def sx0 : ManagedScript :=
  { element :=
      { srcAttr := some ("https://a.example/t.js").data, typeAttr := none
        textContent := none, loadedMark := true }
    category := ("analytics").data
    originalSrc := some ("https://a.example/t.js").data
    inlineContent := none, blocked := false, executed := true }

/-- Sample document holding one gated, unprocessed iframe. -/
def doc0 : List (Nat × IframeElem) :=
  [(0, { categoryAttr := some ("marketing").data, srcAttr := none
         dataSrc := some ("https://y.example/embed").data, processedMark := false })]

/-- The managed entry the first scan of doc0 registers. -/
def mi0 : ManagedIframe :=
  { elemId := 0, category := ("marketing").data
    originalSrc := some ("https://y.example/embed").data, blocked := false }

/-- A freshly constructed system: default manager state, empty storage. -/
def sysInit : ConsentSystem := { manager := initManager, stored := none }

/-- System after a first accepting decision with id generation enabled. -/
def sys9A : ConsentSystem := acceptAll true "ID1" "T1" sysInit

/-- Sample categories for the legacy callback transform. -/
def c8c : ConsentCategories :=
  { necessary := true, functional := true, preferences := false
    analytics := false, marketing := true }

/-- The record persisted by a save from the default categories with id ID1
at time T1. -/
def rec8 : StoredConsent :=
  toStored (buildConsentState { categories := initCategories, consentId := some "ID1" } "T1")

/-- The record persisted by acceptAll with id ID1 at time T1. -/
def recAccept : StoredConsent :=
  toStored
    (buildConsentState
      { categories :=
          { necessary := true, functional := true, preferences := true
            analytics := true, marketing := true }
        consentId := some "ID1" } "T1")

/-- A legacy stored record in the shape of the migration example of the
spec. -/
def legacyT : StoredConsent :=
  { version := none, necessary := some true, functional := none, preferences := none
    analytics := some true, marketing := some false
    timestamp := some "2024-01-01T00:00:00.000Z", consentId := none }

/-- A legacy stored record whose necessary flag is explicitly false. -/
def legacyNecFalse : StoredConsent :=
  { version := none, necessary := some false, functional := none, preferences := none
    analytics := some true, marketing := some false
    timestamp := some "2024-01-01T00:00:00.000Z", consentId := none }

/-- Sample valid consent record for the storage round-trip. -/
def stw : ConsentState :=
  { version := "2.0", necessary := true, functional := false, preferences := true
    analytics := true, marketing := false
    timestamp := "2024-01-01T00:00:00.000Z"
    consentId := some "123e4567-e89b-42d3-a456-426614174000" }


/-- The template string of the fallback UUID generator of
ConsentManager.generateUUID. -/
def uuidTemplate : List Char := ("xxxxxxxx-xxxx-4xxx-yxxx-xxxxxxxxxxxx").data

/-- Hexadecimal digit as JS Number.prototype.toString(16) renders a value
below sixteen. -/
def hexDigit (v : Nat) : Char :=
  if v < 10 then Char.ofNat (48 + v) else Char.ofNat (87 + v)

/-- The replace callback loop of generateUUID: every x takes one random
draw r as its digit, every y takes a draw and renders (r AND 3) OR 8, that
is r mod 4 plus 8; other characters are copied. The draws are the
truncated Math.random values, one per callback invocation, indexed by k. -/
def genUUIDGo (rnd : Nat → Nat) (k : Nat) : List Char → List Char
  | [] => []
  | c :: rest =>
    if c = 'x' then hexDigit (rnd k) :: genUUIDGo rnd (k + 1) rest
    else if c = 'y' then hexDigit (rnd k % 4 + 8) :: genUUIDGo rnd (k + 1) rest
    else c :: genUUIDGo rnd k rest

/-- ConsentManager.generateUUID, fallback branch, with the random draws
passed in. -/
def generateUUID (rnd : Nat → Nat) : List Char := genUUIDGo rnd 0 uuidTemplate

/-- The legacy record of the migration example of the spec, with timestamp
T. -/
def legacyExample (T : String) : StoredConsent :=
  { version := none, necessary := some true, functional := none, preferences := none
    analytics := some true, marketing := some false
    timestamp := some T, consentId := none }

/-- The migrated record the example expects back. -/
def migratedExample (T : String) : StoredConsent :=
  { version := some "2.0", necessary := some true, functional := some false
    preferences := some false, analytics := some true, marketing := some false
    timestamp := some T, consentId := none }


theorem wsWords_nil : wsWords [] [] = [] := rfl

theorem jsSplitWS_of_tokens (attr : List Char) (h : specTokens attr ≠ []) :
    jsSplitWS attr = specTokens attr := by
  unfold jsSplitWS
  by_cases he : (jsTrim attr).isEmpty
  · exfalso
    apply h
    unfold specTokens
    rw [List.isEmpty_iff.mp he]
    rfl
  · simp [he, specTokens]

/-- C1: for a gating expression with at least one non-whitespace token,
shouldAllow is true exactly when no exclusion token names an allowed
category and the requirement set is empty or some requirement token names
an allowed category. -/
theorem shouldAllow_gating_rule (P : List Char → Bool) (attr : List Char)
    (h : specTokens attr ≠ []) :
    shouldAllow P attr = true ↔
      ((∀ e ∈ (classifyTokens (specTokens attr)).2, P e = false) ∧
       ((classifyTokens (specTokens attr)).1 = [] ∨
        ∃ r ∈ (classifyTokens (specTokens attr)).1, P r = true)) := by
  have hjs : parseCategories attr = classifyTokens (specTokens attr) := by
    unfold parseCategories
    rw [jsSplitWS_of_tokens attr h]
  have hrw : shouldAllow P attr =
      (if (classifyTokens (specTokens attr)).2.any P then false
       else if (classifyTokens (specTokens attr)).1.any P then true
       else (classifyTokens (specTokens attr)).1.isEmpty) := by
    unfold shouldAllow
    rw [hjs]
  rw [hrw]
  split_ifs with h1 h2
  · simp only [false_iff, not_and_or]
    left
    push_neg
    obtain ⟨e, he, hPe⟩ := List.any_eq_true.mp h1
    exact ⟨e, he, by simp [hPe]⟩
  · simp only [true_iff]
    refine ⟨?_, Or.inr (List.any_eq_true.mp h2)⟩
    intro e he
    have := List.any_eq_false.mp (Bool.of_not_eq_true h1) e he
    simpa using this
  · rw [List.isEmpty_iff]
    constructor
    · intro hR
      refine ⟨?_, Or.inl hR⟩
      intro e he
      have := List.any_eq_false.mp (Bool.of_not_eq_true h1) e he
      simpa using this
    · rintro ⟨_, hR | ⟨r, hr, hPr⟩⟩
      · exact hR
      · exact absurd (List.any_eq_true.mpr ⟨r, hr, hPr⟩) h2

/-- C1 witness at a concrete predicate and expression. -/
theorem shouldAllow_gating_rule_witness :
    shouldAllow (fun l => decide (l = ("analytics").data)) (("analytics !marketing").data) = true ↔
      ((∀ e ∈ (classifyTokens (specTokens (("analytics !marketing").data))).2,
          (fun l => decide (l = ("analytics").data)) e = false) ∧
       ((classifyTokens (specTokens (("analytics !marketing").data))).1 = [] ∨
        ∃ r ∈ (classifyTokens (specTokens (("analytics !marketing").data))).1,
          (fun l => decide (l = ("analytics").data)) r = true)) :=
  shouldAllow_gating_rule _ _ (by decide)

/-- C2 counterexample: the empty gating expression does not always allow;
an allow-predicate that rejects every name — in particular the category
table with nothing but necessary allowed — makes shouldAllow deny it. -/
theorem shouldAllow_empty_denies :
    shouldAllow (fun _ => false) [] = false ∧
    shouldAllow (catAllowed true false false false false) [] = false := by
  decide

/-- C2 amended: an empty or all-whitespace gating expression is split by the
source into one single empty-named requirement token, so shouldAllow
returns whatever the allow-predicate answers for the empty name instead of
returning true unconditionally. -/
theorem shouldAllow_empty_eval (P : List Char → Bool) (attr : List Char)
    (h : jsTrim attr = []) :
    shouldAllow P attr = P [] := by
  have hsplit : jsSplitWS attr = [[]] := by
    unfold jsSplitWS
    rw [h]
    rfl
  have hparse : parseCategories attr = ([[]], []) := by
    unfold parseCategories
    rw [hsplit]
    rfl
  unfold shouldAllow
  rw [hparse]
  cases hP : P [] <;> simp [hP]

/-- C2 witness: the amended rule applied to the empty expression and a
predicate that accepts the empty name. -/
theorem shouldAllow_empty_eval_witness :
    shouldAllow (fun _ => true) [] = true :=
  shouldAllow_empty_eval (fun _ => true) [] (by decide)

/-- C10: the active category count is one plus the number of allowed
optional categories, lies between one and five, and agrees with getStatus:
five exactly in status all, one exactly in status essential. -/
theorem activeCategoryCount_status (c : ConsentCategories) :
    getActiveCategoryCount c =
      1 + ([c.functional, c.preferences, c.analytics, c.marketing].countP (fun b => b)) ∧
    1 ≤ getActiveCategoryCount c ∧
    getActiveCategoryCount c ≤ 5 ∧
    (getActiveCategoryCount c = 5 ↔ getStatus c = "all") ∧
    (getActiveCategoryCount c = 1 ↔ getStatus c = "essential") := by
  obtain ⟨n, f, p, a, m⟩ := c
  cases n <;> cases f <;> cases p <;> cases a <;> cases m <;> decide

/-- C6 counterexample: evaluate does perform a blocking transition on an
executed script once its rule evaluates to disallowed — the blocked flag
flips from false to true and the result is exactly blockScript of the
script. -/
theorem evaluate_reblocks_executed :
    sx0.executed = true ∧ sx0.blocked = false ∧
    evaluateScript (fun _ => false) sx0 = blockScript sx0 ∧
    (evaluateScript (fun _ => false) sx0).blocked = true := by
  decide

/-- C6 amended: executed is what is terminal — an executed script is never
re-executed (allowScript is a no-op on it), keeps its executed flag through
every evaluate, and keeps reporting status allowed; however when its rule
becomes disallowed and it is not yet marked blocked, evaluate does apply
the blocking transition to it. -/
theorem executed_script_terminal (P : List Char → Bool) (s : ManagedScript)
    (h : s.executed = true) :
    (evaluateScript P s).executed = true ∧
    scriptStatus (evaluateScript P s) = ("allowed").data ∧
    allowScript s = s ∧
    (shouldAllow P s.category = false → s.blocked = false →
      evaluateScript P s = blockScript s) := by
  have hallow : allowScript s = s := by
    unfold allowScript
    rw [h]
    simp
  refine ⟨?_, ?_, hallow, ?_⟩
  · unfold evaluateScript
    cases hA : shouldAllow P s.category <;> cases hB : s.blocked <;>
      simp [h, hA, hB, blockScript, hallow]
  · unfold evaluateScript scriptStatus
    cases hA : shouldAllow P s.category <;> cases hB : s.blocked <;>
      simp [h, hA, hB, blockScript, hallow]
  · intro hA hB
    unfold evaluateScript
    simp [h, hA, hB]

/-- C6 witness: the amended statement at the executed sample script. -/
theorem executed_script_terminal_witness :
    (evaluateScript (fun _ => true) sx0).executed = true ∧
    scriptStatus (evaluateScript (fun _ => true) sx0) = ("allowed").data ∧
    allowScript sx0 = sx0 ∧
    (shouldAllow (fun _ => true) sx0.category = false → sx0.blocked = false →
      evaluateScript (fun _ => true) sx0 = blockScript sx0) :=
  executed_script_terminal (fun _ => true) sx0 (by decide)

/-- C7: after a first scan registers the sample iframe, a second scan over
the updated document resets the managed list and skips the marked iframe,
so the previously tracked iframe is lost from tracking. -/
theorem scanIframes_drops_tracked :
    (scanIframes doc0 []).2 = [mi0] ∧
    (scanIframes (scanIframes doc0 []).1 (scanIframes doc0 []).2).2 = [] := by
  decide

/-- C8 counterexample: in legacy mode the functional and preferences keys
are not omitted from the callback payload — they are present, forced to
false, and the payload keeps five keys. -/
theorem legacy_payload_keys_present :
    ("functional", false) ∈ callbackPayload true c8c ∧
    ("preferences", false) ∈ callbackPayload true c8c ∧
    (callbackPayload true c8c).length = 5 := by
  decide

/-- C8 amended: the legacy callback payload reports analytics as the
disjunction of functional, preferences and analytics, passes marketing
through, and carries functional and preferences as present keys forced to
false; the record the manager persists is built from the live categories,
unaffected by the payload reshaping, in the full five-category shape. -/
theorem legacy_payload_transform (c : ConsentCategories) :
    (callbackPayload true c).lookup "analytics" =
      some (c.functional || c.preferences || c.analytics) ∧
    (callbackPayload true c).lookup "marketing" = some c.marketing ∧
    (callbackPayload true c).lookup "functional" = some false ∧
    (callbackPayload true c).lookup "preferences" = some false ∧
    (callbackPayload true c).lookup "necessary" = some c.necessary ∧
    (∀ (gid : Bool) (fresh now : String) (s : ConsentSystem) (r : StoredConsent),
      (managerSave gid fresh now s).stored = some r →
        r.necessary = some s.manager.categories.necessary ∧
        r.functional = some s.manager.categories.functional ∧
        r.preferences = some s.manager.categories.preferences ∧
        r.analytics = some s.manager.categories.analytics ∧
        r.marketing = some s.manager.categories.marketing ∧
        r.version = some "2.0") := by
  refine ⟨?_, ?_, ?_, ?_, ?_, ?_⟩
  · simp [callbackPayload, List.lookup]
  · simp [callbackPayload, List.lookup]
  · simp [callbackPayload, List.lookup]
  · simp [callbackPayload, List.lookup]
  · simp [callbackPayload, List.lookup]
  · intro gid fresh now s r hr
    unfold managerSave at hr
    simp only [Option.some.injEq] at hr
    subst hr
    simp [toStored, buildConsentState]

/-- C8 witness: the amended statement at the sample categories, with the
persisted-record part discharged on a concrete save. -/
theorem legacy_payload_transform_witness :
    (callbackPayload true c8c).lookup "analytics" = some true ∧
    rec8.functional = some false := by
  refine ⟨?_, ?_⟩
  · have := (legacy_payload_transform c8c).1
    simpa [c8c] using this
  · have := ((legacy_payload_transform c8c).2.2.2.2.2 true "ID1" "T1" sysInit rec8
      (by decide)).2.1
    simpa [sysInit, initManager, initCategories] using this

/-- C3: necessary is true in the in-memory categories after construction,
after load of any stored record, after acceptAll, rejectAll,
savePreferences (whatever the caller passes) and reset; acceptAll leaves
all five categories true and rejectAll leaves exactly necessary true; and
every record the manager persists — through the three decision operations
or through the migration step of load — carries necessary true. -/
theorem necessary_always_true :
    initManager.categories.necessary = true ∧
    (∀ (now : String) (s : ConsentSystem) (c0 : StoredConsent),
      s.stored = some c0 →
        ((loadConsent now s).1).manager.categories.necessary = true) ∧
    (∀ (gid : Bool) (fresh now : String) (s : ConsentSystem),
      (acceptAll gid fresh now s).manager.categories =
        { necessary := true, functional := true, preferences := true
          analytics := true, marketing := true }) ∧
    (∀ (gid : Bool) (fresh now : String) (s : ConsentSystem),
      (rejectAll gid fresh now s).manager.categories =
        { necessary := true, functional := false, preferences := false
          analytics := false, marketing := false }) ∧
    (∀ (ov : CategoryOverrides) (gid : Bool) (fresh now : String) (s : ConsentSystem),
      (savePreferences ov gid fresh now s).manager.categories.necessary = true) ∧
    (∀ s : ConsentSystem, (resetConsent s).manager.categories.necessary = true) ∧
    (∀ (gid : Bool) (fresh now : String) (s : ConsentSystem) (r : StoredConsent),
      (acceptAll gid fresh now s).stored = some r → r.necessary = some true) ∧
    (∀ (gid : Bool) (fresh now : String) (s : ConsentSystem) (r : StoredConsent),
      (rejectAll gid fresh now s).stored = some r → r.necessary = some true) ∧
    (∀ (ov : CategoryOverrides) (gid : Bool) (fresh now : String) (s : ConsentSystem)
        (r : StoredConsent),
      (savePreferences ov gid fresh now s).stored = some r → r.necessary = some true) ∧
    (∀ (now : String) (m : ConsentManagerState) (c0 : StoredConsent),
      c0.version = none →
        ((loadConsent now { manager := m, stored := some c0 }).1).stored =
          some (toStored (migrateV1toV2 now c0)) ∧
        (toStored (migrateV1toV2 now c0)).necessary = some true) := by
  refine ⟨rfl, ?_, ?_, ?_, ?_, ?_, ?_, ?_, ?_, ?_⟩
  · intro now s c0 hs
    simp [loadConsent, hs]
  · intro gid fresh now s
    simp [acceptAll, managerSave]
  · intro gid fresh now s
    simp [rejectAll, managerSave, initCategories]
  · intro ov gid fresh now s
    simp [savePreferences, managerSave]
  · intro s
    simp [resetConsent, initManager, initCategories]
  · intro gid fresh now s r hr
    simp only [acceptAll, managerSave, Option.some.injEq] at hr
    subst hr
    simp [toStored, buildConsentState]
  · intro gid fresh now s r hr
    simp only [rejectAll, managerSave, Option.some.injEq] at hr
    subst hr
    simp [toStored, buildConsentState, initCategories]
  · intro ov gid fresh now s r hr
    simp only [savePreferences, managerSave, Option.some.injEq] at hr
    subst hr
    simp [toStored, buildConsentState]
  · intro now m c0 h0
    constructor
    · simp [loadConsent, h0, Option.isNone_iff_eq_none.mpr h0]
    · simp [toStored, migrateV1toV2]

/-- C3 witness: the load-migration persist conjunct applied to the sample
legacy record, plus the stored record of a concrete acceptAll. -/
theorem necessary_always_true_witness :
    ((loadConsent "T0" { manager := initManager, stored := some legacyT }).1).stored =
      some (toStored (migrateV1toV2 "T0" legacyT)) ∧
    recAccept.necessary = some true := by
  refine ⟨?_, ?_⟩
  · exact (necessary_always_true.2.2.2.2.2.2.2.2.2 "T0" initManager legacyT (by decide)).1
  · exact necessary_always_true.2.2.2.2.2.2.1 true "ID1" "T1" sysInit recAccept (by decide)

/-- C9: with generation enabled, the consent id is assigned on the first
persist and is exactly the single fresh draw of that persist; any later
decision operation leaves it unchanged whatever fresh value is on offer;
reset clears it back to none; with generation disabled no id is ever
assigned; and the fallback generator produces a v4-shaped UUID: 36
characters, dashes at the four dash positions, the digit 4 at the version
position and one of 8, 9, a, b at the variant position. -/
theorem consentId_once_stable :
    (∀ (fresh now : String) (s : ConsentSystem), s.manager.consentId = none →
      getConsentId (acceptAll true fresh now s).manager = some fresh ∧
      getConsentId (rejectAll true fresh now s).manager = some fresh ∧
      (∀ ov : CategoryOverrides,
        getConsentId (savePreferences ov true fresh now s).manager = some fresh)) ∧
    (∀ (i : String) (gid : Bool) (fresh now : String) (s : ConsentSystem),
      s.manager.consentId = some i →
        getConsentId (acceptAll gid fresh now s).manager = some i ∧
        getConsentId (rejectAll gid fresh now s).manager = some i ∧
        (∀ ov : CategoryOverrides,
          getConsentId (savePreferences ov gid fresh now s).manager = some i)) ∧
    (∀ s : ConsentSystem, getConsentId (resetConsent s).manager = none) ∧
    (∀ (fresh now : String) (s : ConsentSystem),
      getConsentId (acceptAll false fresh now s).manager = s.manager.consentId) ∧
    (∀ rnd : Nat → Nat, (∀ k, rnd k < 16) →
      (generateUUID rnd).length = 36 ∧
      (generateUUID rnd).get? 8 = some '-' ∧
      (generateUUID rnd).get? 13 = some '-' ∧
      (generateUUID rnd).get? 14 = some '4' ∧
      (generateUUID rnd).get? 18 = some '-' ∧
      (generateUUID rnd).get? 23 = some '-' ∧
      ((generateUUID rnd).get? 19 = some '8' ∨ (generateUUID rnd).get? 19 = some '9' ∨
       (generateUUID rnd).get? 19 = some 'a' ∨ (generateUUID rnd).get? 19 = some 'b')) := by
  refine ⟨?_, ?_, ?_, ?_, ?_⟩
  · intro fresh now s h
    refine ⟨?_, ?_, fun ov => ?_⟩ <;>
      simp [acceptAll, rejectAll, savePreferences, managerSave, getConsentId, h]
  · intro i gid fresh now s h
    refine ⟨?_, ?_, fun ov => ?_⟩ <;>
      simp [acceptAll, rejectAll, savePreferences, managerSave, getConsentId, h]
  · intro s
    simp [resetConsent, getConsentId, initManager]
  · intro fresh now s
    simp [acceptAll, managerSave, getConsentId]
  · intro rnd hr
    have htempl : uuidTemplate = 'x' :: 'x' :: 'x' :: 'x' :: 'x' :: 'x' :: 'x' :: 'x' :: '-' :: 'x' :: 'x' :: 'x' :: 'x' :: '-' :: '4' :: 'x' :: 'x' :: 'x' :: '-' :: 'y' :: 'x' :: 'x' :: 'x' :: '-' :: 'x' :: 'x' :: 'x' :: 'x' :: 'x' :: 'x' :: 'x' :: 'x' :: 'x' :: 'x' :: 'x' :: 'x' :: [] := by decide
    rw [generateUUID, htempl]
    simp only [genUUIDGo]
    norm_num [List.get?]
    have h4 : rnd 15 % 4 = 0 ∨ rnd 15 % 4 = 1 ∨ rnd 15 % 4 = 2 ∨ rnd 15 % 4 = 3 := by
      omega
    rcases h4 with h | h | h | h <;> rw [h] <;> simp [hexDigit]

/-- C9 witness: generation on the first persist from the fresh system, then
stability across a second decision with a different draw on offer. -/
theorem consentId_once_stable_witness :
    getConsentId (acceptAll true "ID1" "T1" sysInit).manager = some "ID1" ∧
    getConsentId (rejectAll true "ID2" "T2" sys9A).manager = some "ID1" ∧
    getConsentId (resetConsent sys9A).manager = none ∧
    (generateUUID (fun _ => 5)).get? 14 = some '4' := by
  refine ⟨?_, ?_, ?_, ?_⟩
  · exact (consentId_once_stable.1 "ID1" "T1" sysInit (by decide)).1
  · exact (consentId_once_stable.2.1 "ID1" true "ID2" "T2" sys9A (by decide)).2.1
  · exact consentId_once_stable.2.2.1 sys9A
  · exact (consentId_once_stable.2.2.2.2 (fun _ => 5) (fun _ => (by decide : 5 < 16))).2.2.2.1

/-- C4 counterexample: migration does not carry necessary over verbatim; a
legacy record storing necessary false is loaded back with necessary true. -/
theorem load_migration_not_verbatim :
    legacyNecFalse.version = none ∧
    legacyNecFalse.necessary = some false ∧
    ((loadConsent "T0" { manager := initManager, stored := some legacyNecFalse }).2).map
        StoredConsent.necessary = some (some true) := by
  decide

/-- C4 amended: a stored record without a version field is migrated on load
to the v2 shape with necessary stamped true unconditionally, analytics and
marketing carried over (defaulting to false when absent), functional and
preferences defaulted to false, the original timestamp kept (defaulting to
the load time when absent) and version 2.0; the migrated record is
persisted at once and returned, and the in-memory categories follow it; in
particular the migration example of the spec holds as stated. -/
theorem load_migrates_legacy (now : String) (m : ConsentManagerState) (c0 : StoredConsent)
    (h : c0.version = none) :
    loadConsent now { manager := m, stored := some c0 } =
      ({ manager :=
           { categories :=
               { necessary := true, functional := false, preferences := false
                 analytics := c0.analytics.getD false
                 marketing := c0.marketing.getD false }
             consentId := c0.consentId }
         stored := some (toStored (migrateV1toV2 now c0)) },
       some (toStored (migrateV1toV2 now c0))) ∧
    (toStored (migrateV1toV2 now c0)).version = some "2.0" ∧
    (toStored (migrateV1toV2 now c0)).necessary = some true ∧
    (toStored (migrateV1toV2 now c0)).functional = some false ∧
    (toStored (migrateV1toV2 now c0)).preferences = some false ∧
    (toStored (migrateV1toV2 now c0)).analytics = some (c0.analytics.getD false) ∧
    (toStored (migrateV1toV2 now c0)).marketing = some (c0.marketing.getD false) ∧
    (toStored (migrateV1toV2 now c0)).timestamp = some (c0.timestamp.getD now) ∧
    (∀ (T now1 : String) (m1 : ConsentManagerState),
      (loadConsent now1 { manager := m1, stored := some (legacyExample T) }).2 =
        some (migratedExample T)) := by
  refine ⟨?_, by simp [toStored, migrateV1toV2], by simp [toStored, migrateV1toV2],
    by simp [toStored, migrateV1toV2], by simp [toStored, migrateV1toV2],
    by simp [toStored, migrateV1toV2], by simp [toStored, migrateV1toV2],
    by simp [toStored, migrateV1toV2], ?_⟩
  · simp [loadConsent, h, toStored, migrateV1toV2]
  · intro T now1 m1
    simp [loadConsent, legacyExample, migratedExample, toStored, migrateV1toV2]

/-- C4 witness: the migration example instantiated at the sample legacy
record and a concrete load time. -/
theorem load_migrates_legacy_witness :
    (loadConsent "T0" { manager := initManager, stored := some (legacyExample "2024-01-01T00:00:00.000Z") }).2 =
      some (migratedExample "2024-01-01T00:00:00.000Z") :=
  (load_migrates_legacy "X" initManager legacyT (by decide)).2.2.2.2.2.2.2.2
    "2024-01-01T00:00:00.000Z" "T0" initManager

theorem stripPfx_append (p r : List Char) : stripPfx p (p ++ r) = some r := by
  induction p with
  | nil => rfl
  | cons c cs ih => simp [stripPfx, ih]

theorem readStr_append (v r : List Char) (h : ('"' : Char) ∉ v) :
    readStr (v ++ '"' :: r) = some (v, r) := by
  induction v with
  | nil => simp [readStr]
  | cons c cs ih =>
    have hc : c ≠ '"' := fun hcq => h (hcq ▸ List.mem_cons_self c cs)
    have hcs : ('"' : Char) ∉ cs := fun hm => h (List.mem_cons_of_mem c hm)
    simp [readStr, hc, ih hcs]

theorem readBool_append (b : Bool) (r : List Char) :
    readBool (boolLit b ++ r) = some (b, r) := by
  cases b
  · have hne : stripPfx (boolLit true) (boolLit false ++ r) = none := by
      have hbt : boolLit true = 't' :: ("rue").data := by decide
      have hbf : boolLit false = 'f' :: ("alse").data := by decide
      rw [hbt, hbf]
      simp [stripPfx]
    rw [readBool, hne, stripPfx_append]
  · rw [readBool, stripPfx_append]

theorem parseBoolField_append (f : List Char) (b : Bool) (r : List Char) :
    parseBoolField f (f ++ (boolLit b ++ r)) = some (b, r) := by
  simp only [parseBoolField, stripPfx_append, readBool_append]

theorem parseStrField_append (f v r : List Char) (h : ('"' : Char) ∉ v) :
    parseStrField f (f ++ (v ++ '"' :: r)) = some (v, r) := by
  simp only [parseStrField, stripPfx_append, readStr_append v r h]

theorem parseFlags_append (bn bf bp ba bm : Bool) (r : List Char) :
    parseFlags (fNecessary ++ (boolLit bn ++ (fFunctional ++ (boolLit bf ++
      (fPreferences ++ (boolLit bp ++ (fAnalytics ++ (boolLit ba ++
        (fMarketing ++ (boolLit bm ++ r)))))))))) = some ((bn, bf, bp, ba, bm), r) := by
  simp only [parseFlags, parseBoolField_append]

theorem parseEnd_close : parseEnd ['\x7d'] = some none := rfl

theorem parseEnd_id (i : List Char) (h : ('"' : Char) ∉ i) :
    parseEnd (fConsentId ++ (i ++ '"' :: ['\x7d'])) = some (some i) := by
  have hne : fConsentId ++ (i ++ '"' :: ['\x7d']) ≠ ['\x7d'] := by
    have hf : fConsentId = ',' :: ("\"consentId\":\"").data := by decide
    rw [hf]
    simp
  rw [parseEnd, if_neg hne]
  simp only [parseStrField_append fConsentId i ['\x7d'] h]
  rfl

theorem jsonTail_shape (cid : Option String)
    (h : ∀ i, cid = some i → ('"' : Char) ∉ i.data) :
    parseEnd (jsonTail cid) = some (cid.map String.data) := by
  cases cid with
  | none => exact parseEnd_close
  | some i =>
    rw [jsonTail, parseEnd_id i.data (h i rfl)]
    rfl

theorem jsonParse_stringify (s : ConsentState) (hv : ('"' : Char) ∉ s.version.data)
    (ht : ('"' : Char) ∉ s.timestamp.data)
    (hid : ∀ i, s.consentId = some i → ('"' : Char) ∉ i.data) :
    jsonParseConsent (jsonStringify s) = some s := by
  obtain ⟨ver, b1, b2, b3, b4, b5, ts, cid⟩ := s
  have hrs : ∀ r, readStr (ver.data ++ '"' :: r) = some (ver.data, r) :=
    fun r => readStr_append _ r hv
  have htsf : ∀ r, parseStrField fTimestamp (fTimestamp ++ (ts.data ++ '"' :: r)) =
      some (ts.data, r) :=
    fun r => parseStrField_append _ _ r ht
  have hje := jsonTail_shape cid hid
  simp only [jsonStringify, jsonParseConsent, stripPfx_append, hrs, parseFlags_append,
    htsf, hje]
  cases cid <;> rfl

theorem b64inv_b64char : ∀ n < 64, b64inv (b64char n) = some n := by decide

theorem b64char_ne_pad : ∀ n < 64, b64char n ≠ '=' := by decide

theorem atob_btoa : ∀ (l : List Nat), (∀ b ∈ l, b < 256) →
    atobChunks (btoaChunks l) = some l
  | [], _ => rfl
  | [a], h => by
    have ha : a < 256 := h a (by simp)
    rw [btoaChunks, atobChunks]
    rw [if_pos ⟨rfl, rfl, rfl⟩]
    rw [b64inv_b64char (a / 4) (by omega), b64inv_b64char (a % 4 * 16) (by omega)]
    simp only [Option.some.injEq, List.cons.injEq, and_true]
    omega
  | [a, b], h => by
    have ha : a < 256 := h a (by simp)
    have hb : b < 256 := h b (by simp)
    rw [btoaChunks, atobChunks]
    rw [if_neg (by
      rintro ⟨-, h3, -⟩
      exact b64char_ne_pad (b % 16 * 4) (by omega) h3)]
    rw [if_pos ⟨rfl, rfl⟩]
    rw [b64inv_b64char (a / 4) (by omega), b64inv_b64char (a % 4 * 16 + b / 16) (by omega),
      b64inv_b64char (b % 16 * 4) (by omega)]
    simp only [Option.some.injEq, List.cons.injEq, and_true]
    omega
  | a :: b :: c :: rest, h => by
    have ha : a < 256 := h a (by simp)
    have hb : b < 256 := h b (by simp)
    have hc : c < 256 := h c (by simp)
    have hrest : ∀ x ∈ rest, x < 256 := fun x hx => h x (by simp [hx])
    have ih := atob_btoa rest hrest
    rw [btoaChunks, atobChunks]
    rw [if_neg (by
      rintro ⟨-, h3, -⟩
      exact b64char_ne_pad (b % 16 * 4 + c / 64) (by omega) h3)]
    rw [if_neg (by
      rintro ⟨-, h4⟩
      exact b64char_ne_pad (c % 64) (by omega) h4)]
    rw [b64inv_b64char (a / 4) (by omega), b64inv_b64char (a % 4 * 16 + b / 16) (by omega),
      b64inv_b64char (b % 16 * 4 + c / 64) (by omega), b64inv_b64char (c % 64) (by omega),
      ih]
    simp only [Option.some.injEq, List.cons.injEq, and_true, eq_self_iff_true]
    omega

theorem btoaChunks_head (x : Nat) (xs : List Nat) :
    ∃ t, btoaChunks (x :: xs) = b64char (x / 4) :: t := by
  match xs with
  | [] => exact ⟨_, rfl⟩
  | [b] => exact ⟨_, rfl⟩
  | b :: c :: rest => exact ⟨_, rfl⟩

theorem stringify_head (s : ConsentState) :
    ∃ t, jsonStringify s = '\x7b' :: t :=
  ⟨("\"version\":\"").data ++ (s.version.data ++ ('"' :: (fNecessary ++
    (boolLit s.necessary ++ (fFunctional ++ (boolLit s.functional ++
      (fPreferences ++ (boolLit s.preferences ++ (fAnalytics ++
        (boolLit s.analytics ++ (fMarketing ++ (boolLit s.marketing ++
          (fTimestamp ++ (s.timestamp.data ++
            ('"' :: jsonTail s.consentId))))))))))))))), rfl⟩

theorem jsonParse_head_ne (c : Char) (t : List Char) (h : c ≠ '\x7b') :
    jsonParseConsent (c :: t) = none := by
  have hs : stripPfx fVersion (c :: t) = none := by
    rw [fVersion, stripPfx, if_neg (fun h2 => h h2.symm)]
  simp only [jsonParseConsent, hs]

theorem goodStr_no_quote (str : String) (h : goodStr str = true) :
    ('"' : Char) ∉ str.data :=
  fun hm => absurd (List.all_eq_true.mp h _ hm) (by decide)

theorem goodStr_lt256 (str : String) (h : goodStr str = true) :
    ∀ c ∈ str.data, c.toNat < 256 := by
  intro c hc
  have hg := List.all_eq_true.mp h c hc
  simp only [goodChar, Bool.and_eq_true, decide_eq_true_eq] at hg
  omega

theorem validState_unpack (s : ConsentState) (h : validState s = true) :
    goodStr s.version = true ∧ goodStr s.timestamp = true ∧
    (∀ i, s.consentId = some i → goodStr i = true) := by
  simp only [validState, Bool.and_eq_true] at h
  obtain ⟨⟨hv, ht⟩, hc⟩ := h
  refine ⟨hv, ht, fun i hi => ?_⟩
  rw [hi] at hc
  exact hc

theorem all_lt256_append (l1 l2 : List Char) (h1 : ∀ c ∈ l1, c.toNat < 256)
    (h2 : ∀ c ∈ l2, c.toNat < 256) : ∀ c ∈ l1 ++ l2, c.toNat < 256 := by
  intro c hc
  rcases List.mem_append.mp hc with hm | hm
  exacts [h1 c hm, h2 c hm]

theorem all_lt256_cons (c0 : Char) (l : List Char) (h0 : c0.toNat < 256)
    (h : ∀ c ∈ l, c.toNat < 256) : ∀ c ∈ c0 :: l, c.toNat < 256 := by
  intro c hc
  rcases List.mem_cons.mp hc with hm | hm
  · rw [hm]; exact h0
  · exact h c hm

theorem boolLit_lt256 (b : Bool) : ∀ c ∈ boolLit b, c.toNat < 256 := by
  cases b <;> decide

theorem jsonTail_lt256 (cid : Option String)
    (hid : ∀ i, cid = some i → goodStr i = true) :
    ∀ c ∈ jsonTail cid, c.toNat < 256 := by
  cases cid with
  | none => decide
  | some i =>
    rw [jsonTail]
    refine all_lt256_append _ _ (by decide)
      (all_lt256_append _ _ (goodStr_lt256 i (hid i rfl))
        (all_lt256_cons _ _ (by decide) (by decide)))

theorem mem_stringify_lt (s : ConsentState) (h : validState s = true) :
    ∀ c ∈ jsonStringify s, c.toNat < 256 := by
  obtain ⟨hv, ht, hcid⟩ := validState_unpack s h
  rw [jsonStringify]
  exact all_lt256_append _ _ (by decide) (all_lt256_append _ _ (goodStr_lt256 _ hv) (all_lt256_cons _ _ (by decide) (all_lt256_append _ _ (by decide) (all_lt256_append _ _ (boolLit_lt256 _) (all_lt256_append _ _ (by decide) (all_lt256_append _ _ (boolLit_lt256 _) (all_lt256_append _ _ (by decide) (all_lt256_append _ _ (boolLit_lt256 _) (all_lt256_append _ _ (by decide) (all_lt256_append _ _ (boolLit_lt256 _) (all_lt256_append _ _ (by decide) (all_lt256_append _ _ (boolLit_lt256 _) (all_lt256_append _ _ (by decide) (all_lt256_append _ _ (goodStr_lt256 _ ht) (all_lt256_cons _ _ (by decide) (jsonTail_lt256 _ hcid))))))))))))))))

theorem map_ofNat_toNat (l : List Char) : (l.map Char.toNat).map Char.ofNat = l := by
  induction l with
  | nil => rfl
  | cons a tl ih => simp [Char.ofNat_toNat, ih]

/-- C5: for every valid consent record and either setting of the
obfuscation toggle, a save followed by a load returns the same record: the
plain path round-trips through JSON text and the encoded path through the
base64 transform, whose output never parses as a plain record, so the
decoder falls through to the reversible decode; and whenever the plain
parse succeeds, decode answers with it — a valid plain-text record is never
routed through the reversible decode. -/
theorem storage_roundtrip :
    (∀ (encryption : Bool) (s : ConsentState), validState s = true →
        storageLoad (some (storageSave encryption s)) = some s) ∧
    (∀ (stored : List Char) (v : ConsentState),
        jsonParseConsent stored = some v → decode stored = some v) := by
  have hplain : ∀ (stored : List Char) (v : ConsentState),
      jsonParseConsent stored = some v → decode stored = some v := by
    intro t v hp
    have htne : t ≠ [] := by
      intro he
      rw [he, show jsonParseConsent [] = none from rfl] at hp
      exact Option.noConfusion hp
    rw [decode, if_neg htne, hp]
  refine ⟨?_, hplain⟩
  intro enc s hval
  obtain ⟨hv, ht, hcid⟩ := validState_unpack s hval
  have hparse := jsonParse_stringify s (goodStr_no_quote _ hv) (goodStr_no_quote _ ht)
    (fun i hi => goodStr_no_quote _ (hcid i hi))
  cases enc with
  | false => exact hplain _ _ hparse
  | true =>
    obtain ⟨t0, hh⟩ := stringify_head s
    have hmap : (jsonStringify s).map Char.toNat = 123 :: (t0.map Char.toNat) := by
      rw [hh]
      rfl
    obtain ⟨tb, hb⟩ := btoaChunks_head 123 (t0.map Char.toNat)
    have hbt : btoaL (jsonStringify s) = 'e' :: tb := by
      rw [btoaL, hmap, hb]
      rfl
    have hbytes : ∀ b ∈ (jsonStringify s).map Char.toNat, b < 256 := by
      intro b hbm
      obtain ⟨c, hcm, hcb⟩ := List.mem_map.mp hbm
      rw [← hcb]
      exact mem_stringify_lt s hval c hcm
    have hatob : atobL (btoaL (jsonStringify s)) = some (jsonStringify s) := by
      rw [atobL, btoaL, atob_btoa _ hbytes]
      simp only [Option.map_some', map_ofNat_toNat]
    rw [hbt] at hatob
    have hpe : jsonParseConsent ('e' :: tb) = none :=
      jsonParse_head_ne 'e' tb (by decide)
    have hgoal : storageLoad (some (storageSave true s)) = decode ('e' :: tb) := by
      rw [show storageLoad (some (storageSave true s)) =
        decode (btoaL (jsonStringify s)) from rfl, hbt]
    rw [hgoal, decode, if_neg (List.cons_ne_nil 'e' tb), hpe, hatob]
    simp only [hparse]

/-- C5 witness: both storage paths round-trip the sample valid record, and
the plain-parse priority applied to its serialized text. -/
theorem storage_roundtrip_witness :
    validState stw = true ∧
    storageLoad (some (storageSave true stw)) = some stw ∧
    storageLoad (some (storageSave false stw)) = some stw :=
  ⟨by decide, storage_roundtrip.1 true stw (by decide),
    storage_roundtrip.1 false stw (by decide)⟩
